import Mathlib

/-!
Verification of the PROXY protocol v2 header decoder
(src/util/parse_proxy_v2.c) against its specification.

The decoder is embedded shallowly:
* bytes are natural numbers below 256 held in a total memory function
  (so that out-of-slice reads, which in C hit adjacent memory, have a
  definite modelled value) or in a `List Nat` buffer;
* each loop of `print_extensions` becomes a well-founded recursive
  function that also records every buffer index it reads;
* `main`'s decode pipeline becomes a pure function from the received
  byte buffer to a structured result.
-/

namespace ParseProxyV2

/-- Byte memory: a total function from index to byte value.  It models the
C array an extensions slice points into; indices at or beyond the slice
length still denote bytes (of adjacent memory), which is what the C code
reads when it overruns the slice. -/
abbrev Mem := Nat → Nat

/-- Memory backed by a concrete list of bytes; indices past the end read 0. -/
def memOf (l : List Nat) : Mem := fun k => l.getD k 0

/-- The bytes at indices a, a+1, ..., a+len-1. -/
def readRange (mem : Mem) (a len : Nat) : List Nat :=
  (List.range len).map (fun k => mem (a + k))

/-- The indices a, a+1, ..., a+len-1, used to record a payload read of
len bytes starting at index a. -/
def idxRange (a len : Nat) : List Nat :=
  (List.range len).map (fun k => a + k)

/-- Big-endian 16-bit value, as computed by (buf[k] << 8) + buf[k+1]. -/
def be16 (mem : Mem) (k : Nat) : Nat := mem k * 256 + mem (k + 1)

/-- Big-endian 32-bit value at k, as computed by ntohl of the four bytes
at k, k+1, k+2, k+3. -/
def be32 (mem : Mem) (k : Nat) : Nat :=
  mem k * 16777216 + mem (k + 1) * 65536 + mem (k + 2) * 256 + mem (k + 3)

/-- Modelled from the spec: extension type code for ALPN, from the missing
header proxyv2.h (scenario C of the spec fixes ALPN = 0x01). -/
def PP2_TYPE_ALPN : Nat := 0x01

/-- Modelled from the spec: extension type code for AUTHORITY, from the
missing header proxyv2.h. -/
def PP2_TYPE_AUTHORITY : Nat := 0x02

/-- Modelled from the spec: extension type code for SSL, from the missing
header proxyv2.h. -/
def PP2_TYPE_SSL : Nat := 0x20

/-- Modelled from the spec: sub-extension type code for the SSL version,
from the missing header proxyv2.h. -/
def PP2_SUBTYPE_SSL_VERSION : Nat := 0x21

/-- Modelled from the spec: sub-extension type code for the SSL cipher,
from the missing header proxyv2.h. -/
def PP2_SUBTYPE_SSL_CIPHER : Nat := 0x22

/-- A sub-TLV entry recorded inside an SSL extension; only the two known
subtypes are recorded (others are silently skipped by the code). -/
inductive SubEntry where
  | version (payload : List Nat)
  | cipher (payload : List Nat)
deriving Repr, DecidableEq

/-- A top-level TLV entry recorded by print_extensions. -/
inductive ExtEntry where
  | alpn (payload : List Nat)
  | authority (payload : List Nat)
  | ssl (clientFlag : Nat) (verify : Nat) (subs : List SubEntry)
  | unknown (tcode : Nat)
deriving Repr, DecidableEq

/-- Whether a recorded entry is an SSL entry. -/
def ExtEntry.isSsl : ExtEntry → Bool
  | .ssl _ _ _ => true
  | _ => false

/-- Outcome of print_extensions: return value 0 (ok) or 1, the latter
either through extensions_error (bounds error) or through the post-loop
buffer-overrun check (mismatch, carrying the final cursor). -/
inductive ExtOutcome where
  | ok
  | boundsError
  | mismatch (final : Nat)
deriving Repr, DecidableEq

/-- Whether an outcome is the post-loop length-mismatch failure. -/
def ExtOutcome.isMismatch : ExtOutcome → Bool
  | .mismatch _ => true
  | _ => false

/-- Result of the SSL sub-TLV loop: recorded sub-entries plus every
buffer index the loop read. -/
structure SubRun where
  subs : List SubEntry
  reads : List Nat
deriving Repr, DecidableEq

/-- Result of the top-level TLV loop: outcome, recorded entries, and every
buffer index read (indices are relative to the start of the extensions
slice; an index ≥ extensions_len denotes a read past the slice). -/
structure ExtRun where
  outcome : ExtOutcome
  entries : List ExtEntry
  reads : List Nat
deriving Repr, DecidableEq

/-- The sub-TLV loop in the SSL case of print_extensions (source lines
181-199).  With i already advanced past the type/length header, the C code
sets j = i + 5 and, while j < i + l (the bound argument here), reads
subtype = extensions[j] and sublen = (extensions[j+1] << 8) +
extensions[j+2], advances j += 3, prints (hence reads) the sublen payload
bytes for the two known subtypes, and advances j += sublen.  No bound
check is made before the three header reads or the payload read, so reads
may land past the extensions slice; every read index is recorded. -/
def sslSubLoop (mem : Mem) (bound j : Nat) : SubRun :=
  if _h : j < bound then
    if mem j = PP2_SUBTYPE_SSL_VERSION then
      { subs := .version (readRange mem (j + 3) (be16 mem (j + 1)))
          :: (sslSubLoop mem bound (j + 3 + be16 mem (j + 1))).subs,
        reads := [j, j + 1, j + 2] ++ idxRange (j + 3) (be16 mem (j + 1))
          ++ (sslSubLoop mem bound (j + 3 + be16 mem (j + 1))).reads }
    else if mem j = PP2_SUBTYPE_SSL_CIPHER then
      { subs := .cipher (readRange mem (j + 3) (be16 mem (j + 1)))
          :: (sslSubLoop mem bound (j + 3 + be16 mem (j + 1))).subs,
        reads := [j, j + 1, j + 2] ++ idxRange (j + 3) (be16 mem (j + 1))
          ++ (sslSubLoop mem bound (j + 3 + be16 mem (j + 1))).reads }
    else
      { subs := (sslSubLoop mem bound (j + 3 + be16 mem (j + 1))).subs,
        reads := [j, j + 1, j + 2]
          ++ (sslSubLoop mem bound (j + 3 + be16 mem (j + 1))).reads }
  else
    { subs := [], reads := [] }
termination_by bound - j
decreasing_by all_goals omega

/-- The top-level TLV loop of print_extensions (source lines 160-211),
as a recursion over the cursor i.  The C loop head is
for (i = 0; i < extensions_len; i++) and the body advances i += 3 after
the header and i += l - 1 at the end, so one iteration moves the cursor
from i to i + 3 + l.  The first bound check, i > extensions_len - 4 over
C ints, is written i + 4 > extLen over naturals (the two are equivalent
for nonnegative i).  On a bounds failure, extensions_error dumps (reads)
the whole slice.  ALPN and AUTHORITY payload prints read the l payload
bytes; the SSL case unconditionally reads the client-flag byte at the
cursor and the four verify bytes after it, then runs the sub-TLV loop
with bound i + 3 + l starting at j = i + 8.  After the loop, a final
cursor different from extLen yields the mismatch outcome. -/
def extLoop (mem : Mem) (extLen i : Nat) : ExtRun :=
  if _h : i < extLen then
    if i + 4 > extLen then
      { outcome := .boundsError, entries := [], reads := idxRange 0 extLen }
    else
      if be16 mem (i + 1) = 0 ∨ i + 3 + be16 mem (i + 1) > extLen then
        { outcome := .boundsError, entries := [],
          reads := [i, i + 1, i + 2] ++ idxRange 0 extLen }
      else
        if mem i = PP2_TYPE_ALPN then
          { outcome := (extLoop mem extLen (i + 3 + be16 mem (i + 1))).outcome,
            entries := .alpn (readRange mem (i + 3) (be16 mem (i + 1)))
              :: (extLoop mem extLen (i + 3 + be16 mem (i + 1))).entries,
            reads := [i, i + 1, i + 2] ++ idxRange (i + 3) (be16 mem (i + 1))
              ++ (extLoop mem extLen (i + 3 + be16 mem (i + 1))).reads }
        else if mem i = PP2_TYPE_AUTHORITY then
          { outcome := (extLoop mem extLen (i + 3 + be16 mem (i + 1))).outcome,
            entries := .authority (readRange mem (i + 3) (be16 mem (i + 1)))
              :: (extLoop mem extLen (i + 3 + be16 mem (i + 1))).entries,
            reads := [i, i + 1, i + 2] ++ idxRange (i + 3) (be16 mem (i + 1))
              ++ (extLoop mem extLen (i + 3 + be16 mem (i + 1))).reads }
        else if mem i = PP2_TYPE_SSL then
          { outcome := (extLoop mem extLen (i + 3 + be16 mem (i + 1))).outcome,
            entries := .ssl (mem (i + 3)) (be32 mem (i + 4))
                (sslSubLoop mem (i + 3 + be16 mem (i + 1)) (i + 8)).subs
              :: (extLoop mem extLen (i + 3 + be16 mem (i + 1))).entries,
            reads := [i, i + 1, i + 2, i + 3, i + 4, i + 5, i + 6, i + 7]
              ++ (sslSubLoop mem (i + 3 + be16 mem (i + 1)) (i + 8)).reads
              ++ (extLoop mem extLen (i + 3 + be16 mem (i + 1))).reads }
        else
          { outcome := (extLoop mem extLen (i + 3 + be16 mem (i + 1))).outcome,
            entries := .unknown (mem i)
              :: (extLoop mem extLen (i + 3 + be16 mem (i + 1))).entries,
            reads := [i, i + 1, i + 2]
              ++ (extLoop mem extLen (i + 3 + be16 mem (i + 1))).reads }
  else if i = extLen then
    { outcome := .ok, entries := [], reads := [] }
  else
    { outcome := .mismatch i, entries := [], reads := [] }
termination_by extLen - i
decreasing_by all_goals omega

/-- print_extensions (source lines 155-212): run the top-level TLV loop
from cursor 0 over the extensions slice of length extLen. -/
def print_extensions (mem : Mem) (extLen : Nat) : ExtRun :=
  extLoop mem extLen 0

/-- Fuel-indexed variant of sslSubLoop, identical to it except that one
unit of fuel is consumed per iteration and exhaustion yields none.  It
exists to express termination of the inner loop: each iteration advances
j by 3 + sublen, hence by at least 3, so fuel covering a third of the
remaining distance to the bound suffices. -/
def sslSubLoopFuel (mem : Mem) (bound : Nat) : Nat → Nat → Option SubRun
  | fuel, j =>
    if j < bound then
      match fuel with
      | 0 => none
      | fuel + 1 =>
        let st := mem j
        let sublen := be16 mem (j + 1)
        match sslSubLoopFuel mem bound fuel (j + 3 + sublen) with
        | none => none
        | some rest =>
          if st = PP2_SUBTYPE_SSL_VERSION then
            some { subs := .version (readRange mem (j + 3) sublen) :: rest.subs,
                   reads := [j, j + 1, j + 2] ++ idxRange (j + 3) sublen ++ rest.reads }
          else if st = PP2_SUBTYPE_SSL_CIPHER then
            some { subs := .cipher (readRange mem (j + 3) sublen) :: rest.subs,
                   reads := [j, j + 1, j + 2] ++ idxRange (j + 3) sublen ++ rest.reads }
          else
            some { subs := rest.subs, reads := [j, j + 1, j + 2] ++ rest.reads }
    else
      some { subs := [], reads := [] }

/-- Fuel-indexed variant of extLoop, identical to it except that one unit
of fuel is consumed per iteration and exhaustion yields none.  It exists
to express termination of the top-level loop: each iteration advances i
by 3 + l with l ≥ 1 enforced, hence by at least 4, so fuel covering a
quarter of the remaining slice suffices. -/
def extLoopFuel (mem : Mem) (extLen : Nat) : Nat → Nat → Option ExtRun
  | fuel, i =>
    if i < extLen then
      if i + 4 > extLen then
        some { outcome := .boundsError, entries := [], reads := idxRange 0 extLen }
      else
        let t := mem i
        let l := be16 mem (i + 1)
        if l = 0 ∨ i + 3 + l > extLen then
          some { outcome := .boundsError, entries := [],
                 reads := [i, i + 1, i + 2] ++ idxRange 0 extLen }
        else
          match fuel with
          | 0 => none
          | fuel + 1 =>
            match extLoopFuel mem extLen fuel (i + 3 + l) with
            | none => none
            | some rest =>
              if t = PP2_TYPE_ALPN then
                some { outcome := rest.outcome,
                       entries := .alpn (readRange mem (i + 3) l) :: rest.entries,
                       reads := [i, i + 1, i + 2] ++ idxRange (i + 3) l ++ rest.reads }
              else if t = PP2_TYPE_AUTHORITY then
                some { outcome := rest.outcome,
                       entries := .authority (readRange mem (i + 3) l) :: rest.entries,
                       reads := [i, i + 1, i + 2] ++ idxRange (i + 3) l ++ rest.reads }
              else if t = PP2_TYPE_SSL then
                match sslSubLoopFuel mem (i + 3 + l) l (i + 8) with
                | none => none
                | some sub =>
                  some { outcome := rest.outcome,
                         entries := .ssl (mem (i + 3)) (be32 mem (i + 4)) sub.subs :: rest.entries,
                         reads := [i, i + 1, i + 2, i + 3, i + 4, i + 5, i + 6, i + 7]
                           ++ sub.reads ++ rest.reads }
              else
                some { outcome := rest.outcome,
                       entries := .unknown t :: rest.entries,
                       reads := [i, i + 1, i + 2] ++ rest.reads }
    else if i = extLen then
      some { outcome := .ok, entries := [], reads := [] }
    else
      some { outcome := .mismatch i, entries := [], reads := [] }

/-- Modelled from the spec: the version mask of the missing header
proxyv2.h, selecting the high nibble of byte 12. -/
def PP2_VERSION_MASK : Nat := 0xF0

/-- Modelled from the spec: the supported version constant of the missing
header proxyv2.h; the high nibble of byte 12 must equal 2. -/
def PP2_VERSION : Nat := 0x20

/-- Modelled from the spec: the command mask of the missing header
proxyv2.h, selecting the low nibble of byte 12. -/
def PP2_CMD_MASK : Nat := 0x0F

/-- Modelled from the spec: command value 0, a LOCAL connection. -/
def PP2_CMD_LOCAL : Nat := 0x00

/-- Modelled from the spec: command value 1, a PROXYed connection. -/
def PP2_CMD_PROXY : Nat := 0x01

/-- Modelled from the spec: family values of the missing header proxyv2.h;
the address family occupies the high nibble of byte 13. -/
def PP2_FAM_UNSPEC : Nat := 0x00

/-- Modelled from the spec: the INET (IPv4) family value. -/
def PP2_FAM_INET : Nat := 0x10

/-- Modelled from the spec: the INET6 (IPv6) family value. -/
def PP2_FAM_INET6 : Nat := 0x20

/-- Modelled from the spec: the UNIX family value. -/
def PP2_FAM_UNIX : Nat := 0x30

/-- Modelled from the spec: transport values of the missing header
proxyv2.h; the transport occupies the low nibble of byte 13. -/
def PP2_TRANS_UNSPEC : Nat := 0x00

/-- Modelled from the spec: the STREAM transport value. -/
def PP2_TRANS_STREAM : Nat := 0x01

/-- Modelled from the spec: the DGRAM transport value. -/
def PP2_TRANS_DGRAM : Nat := 0x02

/-- Modelled from the spec: the 12-byte magic signature of the missing
header proxyv2.h, the fixed constant of the reference protocol document
cited by the source. -/
def PP2_SIG : List Nat :=
  [0x0D, 0x0A, 0x0D, 0x0A, 0x00, 0x0D, 0x0A, 0x51, 0x55, 0x49, 0x54, 0x0A]

/-- ASCII bytes of the text compared by strncmp at source line 236:
P, R, O, X, Y, space, T, C, P. -/
def proxyTcpBytes : List Nat :=
  [0x50, 0x52, 0x4F, 0x58, 0x59, 0x20, 0x54, 0x43, 0x50]

/-- Byte of the received buffer at index k (0 when out of range; validated
accesses of the decoder stay below the buffer length). -/
def byte (buf : List Nat) (k : Nat) : Nat := buf.getD k 0

/-- The supported family/transport combinations of the decoder. -/
inductive FamilyTransport where
  | tcpV4
  | udpV4
  | tcpV6
  | udpV6
  | unixStream
  | unixDgram
deriving Repr, DecidableEq

/-- The decoded address block. -/
inductive AddressBlock where
  | ipv4 (srcAddr dstAddr : List Nat) (srcPort dstPort : Nat)
  | ipv6 (srcAddr dstAddr : List Nat) (srcPort dstPort : Nat)
  | unix
deriving Repr, DecidableEq

/-- The fatal decode errors of main, one per early-return branch, in the
spec's taxonomy; unspecifiedProtocol is the distinct source branch for
byte 13 = 0x00 (family and transport both unspecified). -/
inductive DecodeError where
  | readTooShort
  | unsupportedV1Format
  | badSignature
  | versionMismatch (b : Nat)
  | unsupportedCommand
  | illegalCommand (b : Nat)
  | unspecifiedProtocol
  | illegalFamilyTransport (b : Nat)
  | lengthTooShortForAddress
  | lengthExceedsBuffer
  | extensionBoundsError
  | extensionLengthMismatch
deriving Repr, DecidableEq

/-- The outward-facing decode result: the fatal error if any, whether the
unsupported-protocol marker was printed, the recognized family/transport,
the decoded address block, and the extension run when one took place. -/
structure DecodeResult where
  error : Option DecodeError
  unsupported : Bool
  familyTransport : Option FamilyTransport
  address : Option AddressBlock
  ext : Option ExtRun
deriving Repr, DecidableEq

/-- A decode aborted before the family/transport stage: the fatal error
with every later field empty. -/
def failWith (e : DecodeError) : DecodeResult :=
  { error := some e, unsupported := false, familyTransport := none,
    address := none, ext := none }

/-- Source and destination addresses and ports as extracted by
print_addr_with_ports (source lines 121-140) from the address block at p:
the source address is the len bytes at offset 0, the destination address
the len bytes at offset len, and the ports the big-endian 16-bit values
at offsets 2*len and 2*len + 2.  inet_ntop cannot fail for AF_INET or
AF_INET6 with 256-byte output buffers, so the error branch is
unreachable and the extraction is modelled as total. -/
structure AddrPorts where
  srcAddr : List Nat
  dstAddr : List Nat
  srcPort : Nat
  dstPort : Nat
deriving Repr, DecidableEq

/-- print_addr_with_ports, with len = 4 for AF_INET and len = 16 for
AF_INET6 and p the memory at the start of the address block. -/
def print_addr_with_ports (len : Nat) (p : Mem) : AddrPorts :=
  { srcAddr := readRange p 0 len
    dstAddr := readRange p len len
    srcPort := p (2 * len) * 256 + p (2 * len + 1)
    dstPort := p (2 * len + 2) * 256 + p (2 * len + 3) }

/-- The byte-13 switch of main (source lines 266-301), restricted to the
six matched nonzero combinations: the protocol tag, the address block
length, and whether the unsupported-in-hitch marker is printed.  In the
source, the marker is printed for UDP over IPv4, UDP over IPv6 and UNIX
datagram, but not for UNIX stream. -/
def famTrans (b : Nat) : Option (FamilyTransport × Nat × Bool) :=
  if b = (PP2_TRANS_STREAM ||| PP2_FAM_INET) then some (.tcpV4, 12, false)
  else if b = (PP2_TRANS_DGRAM ||| PP2_FAM_INET) then some (.udpV4, 12, true)
  else if b = (PP2_TRANS_STREAM ||| PP2_FAM_INET6) then some (.tcpV6, 36, false)
  else if b = (PP2_TRANS_DGRAM ||| PP2_FAM_INET6) then some (.udpV6, 36, true)
  else if b = (PP2_FAM_UNIX ||| PP2_TRANS_STREAM) then some (.unixStream, 216, false)
  else if b = (PP2_FAM_UNIX ||| PP2_TRANS_DGRAM) then some (.unixDgram, 216, true)
  else none

/-- Address block length for a byte-13 value matched by the switch
(0 for unmatched values, which never reach the length checks). -/
def addressLenOf (b : Nat) : Nat :=
  ((famTrans b).map (fun x => x.2.1)).getD 0

/-- The tail of main after the family/transport switch matched (source
lines 303-325): read additional_len as the big-endian 16-bit value at
bytes 14-15, fail when it leaves no room for the address block or when it
runs past the received bytes, otherwise decode the address block (IPv4
for block length 12, IPv6 for 36, the opaque UNIX marker for 216) and,
when additional_len exceeds the block, run print_extensions on the
remaining slice. -/
def afterFamily (buf : List Nat) (ft : FamilyTransport) (addressLen : Nat)
    (unsup : Bool) : DecodeResult :=
  let n := buf.length
  let additionalLen := byte buf 14 * 256 + byte buf 15
  if additionalLen < addressLen then
    { error := some .lengthTooShortForAddress, unsupported := unsup,
      familyTransport := some ft, address := none, ext := none }
  else if additionalLen + 16 > n then
    { error := some .lengthExceedsBuffer, unsupported := unsup,
      familyTransport := some ft, address := none, ext := none }
  else
    let addr : AddressBlock :=
      if addressLen = 12 then
        let ap := print_addr_with_ports 4 (fun k => byte buf (16 + k))
        .ipv4 ap.srcAddr ap.dstAddr ap.srcPort ap.dstPort
      else if addressLen = 36 then
        let ap := print_addr_with_ports 16 (fun k => byte buf (16 + k))
        .ipv6 ap.srcAddr ap.dstAddr ap.srcPort ap.dstPort
      else
        .unix
    if addressLen < additionalLen then
      let run := print_extensions (fun k => byte buf (16 + addressLen + k))
        (additionalLen - addressLen)
      { error :=
          match run.outcome with
          | .ok => none
          | .boundsError => some .extensionBoundsError
          | .mismatch _ => some .extensionLengthMismatch,
        unsupported := unsup, familyTransport := some ft,
        address := some addr, ext := some run }
    else
      { error := none, unsupported := unsup, familyTransport := some ft,
        address := some addr, ext := none }

/-- The decode pipeline of main (source lines 230-325), a pure function of
the received bytes: length check, v1 text check, signature check, version
nibble check, command nibble switch, byte-13 family/transport switch with
its distinct branch for the all-unspecified value 0x00, then the length
checks, address block and extensions via afterFamily. -/
def decode (buf : List Nat) : DecodeResult :=
  let n := buf.length
  if n < 16 then failWith .readTooShort
  else if buf.take 9 = proxyTcpBytes then failWith .unsupportedV1Format
  else if ¬ buf.take 12 = PP2_SIG then failWith .badSignature
  else if ¬ (byte buf 12 &&& PP2_VERSION_MASK) = PP2_VERSION then
    failWith (.versionMismatch (byte buf 12))
  else if (byte buf 12 &&& PP2_CMD_MASK) = PP2_CMD_LOCAL then
    failWith .unsupportedCommand
  else if ¬ (byte buf 12 &&& PP2_CMD_MASK) = PP2_CMD_PROXY then
    failWith (.illegalCommand (byte buf 12))
  else if byte buf 13 = (PP2_TRANS_UNSPEC ||| PP2_FAM_UNSPEC) then
    failWith .unspecifiedProtocol
  else
    match famTrans (byte buf 13) with
    | none => failWith (.illegalFamilyTransport (byte buf 13))
    | some (ft, addressLen, unsup) => afterFamily buf ft addressLen unsup

/-- Concrete extensions slice of length 9 holding one SSL extension of
declared length 6: type 0x20, length bytes 0x00 0x06, client flag 0xAA,
four verify bytes, and one leftover payload byte 0x21.  The sub-TLV
cursor starts at index 8 and the inner loop reads indices 8, 9 and 10,
the last two lying past the slice. -/
def memSslOverread : Mem := memOf [0x20, 0x00, 0x06, 0xAA, 0, 0, 0, 0, 0x21]

/-- Concrete extensions slice of length 4 holding one SSL extension of
declared length 1: type 0x20, length bytes 0x00 0x01, and the single
payload byte 0xAA.  The bytes 0xBB 0xCC 0xDD 0xEE lie beyond the slice,
in adjacent memory. -/
def memSslShort : Mem := memOf [0x20, 0x00, 0x01, 0xAA, 0xBB, 0xCC, 0xDD, 0xEE]

/-- Concrete extensions slice of length 5 holding one ALPN extension with
the two payload bytes h and 2. -/
def memAlpnOnly : Mem := memOf [0x01, 0x00, 0x02, 0x68, 0x32]

/-- Concrete extensions slice of length 9 holding one extension of the
unrecognized type 0x42 with one payload byte, followed by one ALPN
extension with the two payload bytes h and 2. -/
def memUnknownThenAlpn : Mem := memOf [0x42, 0x00, 0x01, 0xAA, 0x01, 0x00, 0x02, 0x68, 0x32]

/-- Scenario A of the spec: signature, version 2 with the PROXY command,
TCP over IPv4, additional length 12, source 10.0.0.1, destination
10.0.0.2, ports 8080 and 80. -/
def bufScenarioA : List Nat :=
  PP2_SIG ++ [0x21, 0x11, 0x00, 0x0C]
    ++ [10, 0, 0, 1, 10, 0, 0, 2, 0x1F, 0x90, 0x00, 0x50]

/-- Scenario B of the spec: scenario A with the length field lowered to 8,
which leaves no room for the IPv4 address block. -/
def bufScenarioB : List Nat :=
  PP2_SIG ++ [0x21, 0x11, 0x00, 0x08]
    ++ [10, 0, 0, 1, 10, 0, 0, 2, 0x1F, 0x90, 0x00, 0x50]

/-- A 16-byte buffer starting with the ASCII text PROXY TCP. -/
def bufV1Padded : List Nat := proxyTcpBytes ++ List.replicate 7 0

/-- A valid header for UNIX stream (byte 13 = 0x31) with additional
length 216, exactly the UNIX address block, and no extensions. -/
def bufUnixStream : List Nat :=
  PP2_SIG ++ [0x21, 0x31, 0x00, 0xD8] ++ List.replicate 216 0

/-- A valid header for UDP over IPv4 (byte 13 = 0x12) with additional
length 12 and exactly the IPv4 address block. -/
def bufUdp4 : List Nat :=
  PP2_SIG ++ [0x21, 0x12, 0x00, 0x0C]
    ++ [10, 0, 0, 1, 10, 0, 0, 2, 0x1F, 0x90, 0x00, 0x50]

/-- A buffer passing signature, version and command checks whose byte 13
is 0x00: family and transport both unspecified. -/
def bufUnspec : List Nat := PP2_SIG ++ [0x21, 0x00, 0x00, 0x00]

/-- Fuel sufficiency for the sub-TLV loop: every iteration advances the
cursor j by 3 + sublen, hence by at least 3, so any fuel with
bound ≤ j + 3 * fuel makes the fueled loop agree with the recursive one. -/
theorem sslSubLoopFuel_eq_some (mem : Mem) (bound : Nat) :
    ∀ fuel j, bound ≤ j + 3 * fuel →
      sslSubLoopFuel mem bound fuel j = some (sslSubLoop mem bound j) := by
  intro fuel
  induction fuel with
  | zero =>
    intro j h
    rw [sslSubLoopFuel, sslSubLoop]
    have hj : ¬ j < bound := by omega
    simp [hj]
  | succ fuel ih =>
    intro j h
    rw [sslSubLoopFuel, sslSubLoop]
    by_cases hj : j < bound
    · simp only [if_pos hj, dif_pos hj]
      rw [ih (j + 3 + be16 mem (j + 1)) (by omega)]
      split_ifs <;> rfl
    · simp [hj]

/-- Fuel sufficiency for the top-level TLV loop: every iteration advances
the cursor i by 3 + l with l ≥ 1 enforced, hence by at least 4, so any
fuel with extLen ≤ i + 4 * fuel makes the fueled loop agree with the
recursive one. -/
theorem extLoopFuel_eq_some (mem : Mem) (extLen : Nat) :
    ∀ fuel i, extLen ≤ i + 4 * fuel →
      extLoopFuel mem extLen fuel i = some (extLoop mem extLen i) := by
  intro fuel
  induction fuel with
  | zero =>
    intro i h
    rw [extLoopFuel, extLoop]
    have hi : ¬ i < extLen := by omega
    simp only [if_neg hi, dif_neg hi]
    split_ifs <;> rfl
  | succ fuel ih =>
    intro i h
    rw [extLoopFuel, extLoop]
    by_cases hi : i < extLen
    · simp only [if_pos hi, dif_pos hi]
      by_cases hb : i + 4 > extLen
      · simp [hb]
      · simp only [if_neg hb]
        by_cases hl : be16 mem (i + 1) = 0 ∨ i + 3 + be16 mem (i + 1) > extLen
        · simp [hl]
        · simp only [if_neg hl]
          rw [ih (i + 3 + be16 mem (i + 1)) (by omega)]
          rw [sslSubLoopFuel_eq_some mem (i + 3 + be16 mem (i + 1))
            (be16 mem (i + 1)) (i + 8) (by omega)]
          split_ifs <;> rfl
    · simp only [if_neg hi, dif_neg hi]
      split_ifs <;> rfl

/-- Evaluation bridge: a fueled run that returns a value with sufficient
fuel determines the value of print_extensions. -/
theorem print_extensions_eval (mem : Mem) (extLen fuel : Nat) (val : ExtRun)
    (hf : extLen ≤ 4 * fuel) (hv : extLoopFuel mem extLen fuel 0 = some val) :
    print_extensions mem extLen = val := by
  have h := extLoopFuel_eq_some mem extLen fuel 0 (by omega)
  rw [hv] at h
  exact Option.some.inj h.symm

/-- C10: the Extension Decoder terminates on every slice.  Every iteration
of the top-level loop advances the cursor i by 3 + l with l ≥ 1 (so by at
least 4) and every iteration of the nested SSL sub-TLV loop advances the
cursor j by 3 + sublen (so by at least 3, even when sublen = 0); hence
fuel of a third of the inner distance and a quarter of the outer distance
already makes the fuel-counted loops complete, agreeing with the
recursive ones, for all memories, bounds and cursors. -/
theorem extensionDecoderTerminates (mem : Mem) (bound j fIn extLen i fOut : Nat)
    (hIn : bound ≤ j + 3 * fIn) (hOut : extLen ≤ i + 4 * fOut) :
    sslSubLoopFuel mem bound fIn j = some (sslSubLoop mem bound j) ∧
    extLoopFuel mem extLen fOut i = some (extLoop mem extLen i) :=
  ⟨sslSubLoopFuel_eq_some mem bound fIn j hIn,
   extLoopFuel_eq_some mem extLen fOut i hOut⟩

/-- C10 witness: on the concrete slice holding an unknown-typed extension
followed by an ALPN extension, fuel 3 suffices for both loops from
cursor 0 with bound 9. -/
theorem extensionDecoderTerminates_witness :
    sslSubLoopFuel memUnknownThenAlpn 9 3 0
        = some (sslSubLoop memUnknownThenAlpn 9 0) ∧
    extLoopFuel memUnknownThenAlpn 9 3 0
        = some (extLoop memUnknownThenAlpn 9 0) :=
  extensionDecoderTerminates memUnknownThenAlpn 9 0 3 9 0 3 (by omega) (by omega)

/-- Every index in idxRange a len is below any bound at or above a + len. -/
theorem idxRange_mem_lt (a len bnd : Nat) (h : a + len ≤ bnd) :
    ∀ k ∈ idxRange a len, k < bnd := by
  intro k hk
  simp only [idxRange, List.mem_map, List.mem_range] at hk
  omega

/-- C7: started at any cursor at or below the slice end (in particular at
cursor 0), the top-level TLV loop never exits at a cursor different from
extensions_len: each iteration requires i + 4 ≤ extensions_len and
i + 3 + len ≤ extensions_len before advancing the cursor to i + 3 + len,
so the cursor stays at or below extensions_len and the loop condition
fails only at equality, making the post-loop ExtensionLengthMismatch
branch unreachable. -/
theorem extensionMismatchUnreachable (mem : Mem) (extLen : Nat) : ∀ (i : Nat),
    i ≤ extLen → ((extLoop mem extLen i).outcome).isMismatch = false := by
  intro i
  induction i using extLoop.induct mem extLen with
  | case1 x hx hb =>
    intro _hle
    rw [extLoop, dif_pos hx, if_pos hb]
    rfl
  | case2 x hx hb hl =>
    intro _hle
    rw [extLoop, dif_pos hx, if_neg hb, if_pos hl]
    rfl
  | case3 x hx hb hl ht ih =>
    intro _hle
    rw [extLoop, dif_pos hx, if_neg hb, if_neg hl, if_pos ht]
    exact ih (by omega)
  | case4 x hx hb hl ht1 ht2 ih =>
    intro _hle
    rw [extLoop, dif_pos hx, if_neg hb, if_neg hl, if_neg ht1, if_pos ht2]
    exact ih (by omega)
  | case5 x hx hb hl ht1 ht2 ht3 ih =>
    intro _hle
    rw [extLoop, dif_pos hx, if_neg hb, if_neg hl, if_neg ht1, if_neg ht2, if_pos ht3]
    exact ih (by omega)
  | case6 x hx hb hl ht1 ht2 ht3 ih =>
    intro _hle
    rw [extLoop, dif_pos hx, if_neg hb, if_neg hl, if_neg ht1, if_neg ht2, if_neg ht3]
    exact ih (by omega)
  | case7 h =>
    intro _hle
    rw [extLoop, dif_neg h, if_pos rfl]
    rfl
  | case8 x hx hne =>
    intro hle
    omega

/-- C7 witness: on the concrete ALPN-only slice of length 5, the loop from
cursor 0 does not exit through the mismatch branch. -/
theorem extensionMismatchUnreachable_witness :
    ((extLoop memAlpnOnly 5 0).outcome).isMismatch = false :=
  extensionMismatchUnreachable memAlpnOnly 5 0 (by omega)

/-- C1 (amended): when the run records no SSL-typed extension, the
Extension Decoder reads no byte at an index at or past extensions_len:
the top-level header reads are guarded by i + 4 ≤ extensions_len, payload
reads by i + 3 + len ≤ extensions_len, and the failure dump reads exactly
the slice.  (The SSL case is excepted: its unconditional field reads and
its nested sub-TLV loop can read past extensions_len, see the
counterexample.) -/
theorem extensionReadsInBounds (mem : Mem) (extLen : Nat) : ∀ (i : Nat),
    (∀ e ∈ (extLoop mem extLen i).entries, e.isSsl = false) →
    ∀ k ∈ (extLoop mem extLen i).reads, k < extLen := by
  intro i
  induction i using extLoop.induct mem extLen with
  | case1 x hx hb =>
    intro _hssl k hk
    rw [extLoop, dif_pos hx, if_pos hb] at hk
    exact idxRange_mem_lt 0 extLen extLen (by omega) k hk
  | case2 x hx hb hl =>
    intro _hssl k hk
    rw [extLoop, dif_pos hx, if_neg hb, if_pos hl] at hk
    simp only [List.mem_append, List.mem_cons, List.not_mem_nil, or_false] at hk
    rcases hk with hk | hk
    · omega
    · exact idxRange_mem_lt 0 extLen extLen (by omega) k hk
  | case3 x hx hb hl ht ih =>
    intro hssl k hk
    rw [extLoop, dif_pos hx, if_neg hb, if_neg hl, if_pos ht] at hssl hk
    simp only [List.mem_append, List.mem_cons, List.not_mem_nil, or_false] at hk
    rcases hk with (hk | hk) | hk
    · omega
    · exact idxRange_mem_lt (x + 3) (be16 mem (x + 1)) extLen (by omega) k hk
    · refine ih ?_ k hk
      intro e he
      exact hssl e (List.mem_cons_of_mem _ he)
  | case4 x hx hb hl ht1 ht2 ih =>
    intro hssl k hk
    rw [extLoop, dif_pos hx, if_neg hb, if_neg hl, if_neg ht1, if_pos ht2] at hssl hk
    simp only [List.mem_append, List.mem_cons, List.not_mem_nil, or_false] at hk
    rcases hk with (hk | hk) | hk
    · omega
    · exact idxRange_mem_lt (x + 3) (be16 mem (x + 1)) extLen (by omega) k hk
    · refine ih ?_ k hk
      intro e he
      exact hssl e (List.mem_cons_of_mem _ he)
  | case5 x hx hb hl ht1 ht2 ht3 ih =>
    intro hssl k hk
    rw [extLoop, dif_pos hx, if_neg hb, if_neg hl, if_neg ht1, if_neg ht2, if_pos ht3]
      at hssl
    have hs : ExtEntry.isSsl (.ssl (mem (x + 3)) (be32 mem (x + 4))
        (sslSubLoop mem (x + 3 + be16 mem (x + 1)) (x + 8)).subs) = false :=
      hssl _ (List.mem_cons_self _ _)
    simp [ExtEntry.isSsl] at hs
  | case6 x hx hb hl ht1 ht2 ht3 ih =>
    intro hssl k hk
    rw [extLoop, dif_pos hx, if_neg hb, if_neg hl, if_neg ht1, if_neg ht2, if_neg ht3]
      at hssl hk
    simp only [List.mem_append, List.mem_cons, List.not_mem_nil, or_false] at hk
    rcases hk with hk | hk
    · omega
    · refine ih ?_ k hk
      intro e he
      exact hssl e (List.mem_cons_of_mem _ he)
  | case7 h =>
    intro _hssl k hk
    rw [extLoop, dif_neg h, if_pos rfl] at hk
    simp at hk
  | case8 x hx hne =>
    intro _hssl k hk
    rw [extLoop, dif_neg hx, if_neg hne] at hk
    simp at hk

/-- C1 witness: the ALPN-only slice of length 5 records no SSL entry and
every one of its reads lands below 5. -/
theorem extensionReadsInBounds_witness :
    (∀ e ∈ (extLoop memAlpnOnly 5 0).entries, e.isSsl = false) ∧
    ∀ k ∈ (extLoop memAlpnOnly 5 0).reads, k < 5 := by
  have hev : extLoop memAlpnOnly 5 0 =
      { outcome := .ok, entries := [.alpn [0x68, 0x32]], reads := [0, 1, 2, 3, 4] } :=
    print_extensions_eval memAlpnOnly 5 2 _ (by omega) (by decide)
  refine ⟨?_, extensionReadsInBounds memAlpnOnly 5 0 ?_⟩ <;> rw [hev] <;> decide

/-- C1 counterexample: on the slice memSslOverread of length 9 the decode
succeeds after the SSL sub-TLV loop has read indices 9 and 10, both at or
past extensions_len = 9, so the decoder does read past extensions_len
when an SSL extension is present. -/
theorem extensionReadsOutOfBounds_cex :
    (print_extensions memSslOverread 9).outcome = .ok ∧
    9 ∈ (print_extensions memSslOverread 9).reads ∧
    10 ∈ (print_extensions memSslOverread 9).reads := by
  have hev : print_extensions memSslOverread 9 =
      { outcome := .ok, entries := [.ssl 0xAA 0 [.version []]],
        reads := [0, 1, 2, 3, 4, 5, 6, 7, 8, 9, 10] } :=
    print_extensions_eval memSslOverread 9 3 _ (by omega) (by decide)
  rw [hev]
  exact ⟨rfl, by decide, by decide⟩

/-- C8: an extension entry of a type other than ALPN, AUTHORITY and SSL
whose length passes the bound checks is recorded as an unknown entry and
does not abort the run: the outcome and every further entry are those of
the loop continued just past the entry, so a subsequent well-formed
extension is still decoded and the run still succeeds whenever the rest
of the slice is well-formed. -/
theorem unknownExtensionNonfatal (mem : Mem) (extLen i : Nat)
    (hi : i < extLen) (hb : ¬ i + 4 > extLen)
    (ht1 : ¬ mem i = PP2_TYPE_ALPN) (ht2 : ¬ mem i = PP2_TYPE_AUTHORITY)
    (ht3 : ¬ mem i = PP2_TYPE_SSL)
    (hl : ¬ (be16 mem (i + 1) = 0 ∨ i + 3 + be16 mem (i + 1) > extLen)) :
    (extLoop mem extLen i).outcome
        = (extLoop mem extLen (i + 3 + be16 mem (i + 1))).outcome ∧
    (extLoop mem extLen i).entries
        = .unknown (mem i) :: (extLoop mem extLen (i + 3 + be16 mem (i + 1))).entries := by
  rw [extLoop, dif_pos hi, if_neg hb, if_neg hl, if_neg ht1, if_neg ht2, if_neg ht3]
  exact ⟨rfl, rfl⟩

/-- C8 witness: on the concrete slice holding an unknown-typed entry
(type 0x42) followed by an ALPN entry, the unknown entry is recorded and
the loop continues at cursor 4; the continued run decodes the ALPN entry
and succeeds, so the whole run succeeds with both entries recorded. -/
theorem unknownExtensionNonfatal_witness :
    ((extLoop memUnknownThenAlpn 9 0).outcome
        = (extLoop memUnknownThenAlpn 9 (0 + 3 + be16 memUnknownThenAlpn (0 + 1))).outcome ∧
      (extLoop memUnknownThenAlpn 9 0).entries
        = .unknown (memUnknownThenAlpn 0)
            :: (extLoop memUnknownThenAlpn 9 (0 + 3 + be16 memUnknownThenAlpn (0 + 1))).entries) ∧
    (print_extensions memUnknownThenAlpn 9).outcome = .ok ∧
    (print_extensions memUnknownThenAlpn 9).entries
        = [.unknown 0x42, .alpn [0x68, 0x32]] := by
  have hev : print_extensions memUnknownThenAlpn 9 =
      { outcome := .ok, entries := [.unknown 0x42, .alpn [0x68, 0x32]],
        reads := [0, 1, 2, 4, 5, 6, 7, 8] } :=
    print_extensions_eval memUnknownThenAlpn 9 3 _ (by omega) (by decide)
  refine ⟨unknownExtensionNonfatal memUnknownThenAlpn 9 0 (by decide) (by decide)
    (by decide) (by decide) (by decide) (by decide), ?_, ?_⟩ <;> rw [hev]

/-- C3 (amended): for every SSL-typed extension entry passing the length
checks, the decoder reads the client flag from the byte at the cursor and
the verify result as the big-endian u32 from the next four bytes,
unconditionally: no 5-byte minimum on the declared length is enforced, so
when the declared length is less than 5 these fixed-offset reads fall
outside the entry's payload (see the counterexample). -/
theorem sslFieldsReadUnconditionally (mem : Mem) (extLen i : Nat)
    (hi : i < extLen) (hb : ¬ i + 4 > extLen) (ht : mem i = PP2_TYPE_SSL)
    (hl : ¬ (be16 mem (i + 1) = 0 ∨ i + 3 + be16 mem (i + 1) > extLen)) :
    (extLoop mem extLen i).entries
        = .ssl (mem (i + 3)) (be32 mem (i + 4))
            (sslSubLoop mem (i + 3 + be16 mem (i + 1)) (i + 8)).subs
          :: (extLoop mem extLen (i + 3 + be16 mem (i + 1))).entries ∧
    [i + 3, i + 4, i + 5, i + 6, i + 7] ⊆ (extLoop mem extLen i).reads := by
  have ht1 : ¬ mem i = PP2_TYPE_ALPN := by rw [ht]; decide
  have ht2 : ¬ mem i = PP2_TYPE_AUTHORITY := by rw [ht]; decide
  rw [extLoop, dif_pos hi, if_neg hb, if_neg hl, if_neg ht1, if_neg ht2, if_pos ht]
  refine ⟨rfl, ?_⟩
  intro k hk
  simp only [List.mem_cons, List.not_mem_nil, or_false] at hk
  simp only [List.mem_append, List.mem_cons]
  rcases hk with h | h | h | h | h <;> subst h <;> tauto

/-- C3 witness: on the slice memSslShort of length 4, the single SSL
entry has declared length 1 and still has its client flag read at index 3
and its verify field at indices 4 to 7. -/
theorem sslFieldsReadUnconditionally_witness :
    (extLoop memSslShort 4 0).entries
        = .ssl (memSslShort (0 + 3)) (be32 memSslShort (0 + 4))
            (sslSubLoop memSslShort (0 + 3 + be16 memSslShort (0 + 1)) (0 + 8)).subs
          :: (extLoop memSslShort 4 (0 + 3 + be16 memSslShort (0 + 1))).entries ∧
    [0 + 3, 0 + 4, 0 + 5, 0 + 6, 0 + 7] ⊆ (extLoop memSslShort 4 0).reads :=
  sslFieldsReadUnconditionally memSslShort 4 0 (by decide) (by decide) (by decide)
    (by decide)

/-- C3 counterexample: the slice memSslShort of length 4 holds an SSL
extension with declared length 1 < 5; decoding succeeds anyway, with the
client flag taken from the single payload byte and the verify field
decoded from the four bytes at indices 4 to 7, which lie outside the
payload and outside the slice, so the decoder enforces no 5-byte
minimum. -/
theorem sslNoMinimumLength_cex :
    (print_extensions memSslShort 4).outcome = .ok ∧
    (print_extensions memSslShort 4).entries = [.ssl 0xAA 0xBBCCDDEE []] ∧
    7 ∈ (print_extensions memSslShort 4).reads := by
  have hev : print_extensions memSslShort 4 =
      { outcome := .ok, entries := [.ssl 0xAA 0xBBCCDDEE []],
        reads := [0, 1, 2, 3, 4, 5, 6, 7] } :=
    print_extensions_eval memSslShort 4 1 _ (by omega) (by decide)
  rw [hev]
  exact ⟨rfl, rfl, by decide⟩

/-- C4 (amended): for every buffer of at least 16 bytes whose first 9
bytes are the ASCII text PROXY TCP, decode fails with
UnsupportedV1Format regardless of the remaining content and of the total
length.  (Buffers shorter than 16 bytes fail with ReadTooShort first,
see the counterexample.) -/
theorem v1AlwaysRejected (buf : List Nat) (hn : 16 ≤ buf.length)
    (h9 : buf.take 9 = proxyTcpBytes) :
    decode buf = failWith .unsupportedV1Format := by
  simp [decode, h9, Nat.not_lt.mpr hn]

/-- C4 witness: a 16-byte buffer starting with PROXY TCP is rejected as a
v1 header. -/
theorem v1AlwaysRejected_witness :
    decode bufV1Padded = failWith .unsupportedV1Format :=
  v1AlwaysRejected bufV1Padded (by decide) (by decide)

/-- C4 counterexample: a 9-byte buffer consisting exactly of PROXY TCP
has its first 9 bytes equal to that text, yet decode fails with
ReadTooShort, not UnsupportedV1Format: the length check precedes the v1
check, so the claim does not hold regardless of total length. -/
theorem v1ShortBuffer_cex :
    proxyTcpBytes.take 9 = proxyTcpBytes ∧
    decode proxyTcpBytes = failWith .readTooShort := by decide

/-- C9: a buffer passing the signature, version and command checks whose
byte 13 is 0x00 (family unspecified, transport unspecified) fails
immediately through the dedicated fatal branch: no address block is
decoded, no family/transport is recorded, and no unsupported marker is
printed — unlike the UDP and UNIX combinations, this case is fatal. -/
theorem unspecifiedProtocolFatal (buf : List Nat) (hn : 16 ≤ buf.length)
    (h9 : ¬ buf.take 9 = proxyTcpBytes) (hsig : buf.take 12 = PP2_SIG)
    (hver : byte buf 12 &&& PP2_VERSION_MASK = PP2_VERSION)
    (hcmd : byte buf 12 &&& PP2_CMD_MASK = PP2_CMD_PROXY)
    (hb13 : byte buf 13 = 0) :
    decode buf = failWith .unspecifiedProtocol := by
  simp [decode, h9, hsig, hver, hcmd, hb13, Nat.not_lt.mpr hn,
    PP2_CMD_PROXY, PP2_CMD_LOCAL, PP2_TRANS_UNSPEC, PP2_FAM_UNSPEC]

/-- C9 witness: a concrete header with byte 13 = 0x00 decodes to the
fatal unspecified-protocol failure with every later field empty. -/
theorem unspecifiedProtocolFatal_witness :
    decode bufUnspec = failWith .unspecifiedProtocol :=
  unspecifiedProtocolFatal bufUnspec (by decide) (by decide) (by decide) (by decide)
    (by decide) (by decide)

/-- C5: with signature, version, command and family/transport checks
passed and address block size aLen, decoding reads additional_len as the
big-endian 16-bit value at bytes 14-15 and fails with
LengthTooShortForAddress exactly when additional_len < aLen; it fails
with LengthExceedsBuffer exactly when additional_len ≥ aLen and
16 + additional_len exceeds the buffer length (the first check is made
first); when both checks pass, decoding proceeds to the address block. -/
theorem lengthChecks (buf : List Nat) (ft : FamilyTransport) (aLen : Nat) (u : Bool)
    (hn : 16 ≤ buf.length)
    (h9 : ¬ buf.take 9 = proxyTcpBytes) (hsig : buf.take 12 = PP2_SIG)
    (hver : byte buf 12 &&& PP2_VERSION_MASK = PP2_VERSION)
    (hcmd : byte buf 12 &&& PP2_CMD_MASK = PP2_CMD_PROXY)
    (hft : famTrans (byte buf 13) = some (ft, aLen, u)) :
    ((decode buf).error = some .lengthTooShortForAddress ↔
        byte buf 14 * 256 + byte buf 15 < aLen) ∧
    ((decode buf).error = some .lengthExceedsBuffer ↔
        (aLen ≤ byte buf 14 * 256 + byte buf 15 ∧
          buf.length < byte buf 14 * 256 + byte buf 15 + 16)) ∧
    (aLen ≤ byte buf 14 * 256 + byte buf 15 →
      byte buf 14 * 256 + byte buf 15 + 16 ≤ buf.length →
      (decode buf).address.isSome = true) := by
  have h0 : ¬ byte buf 13 = PP2_TRANS_UNSPEC ||| PP2_FAM_UNSPEC := by
    intro h
    rw [show (PP2_TRANS_UNSPEC ||| PP2_FAM_UNSPEC : Nat) = 0 from rfl] at h
    rw [h, show famTrans 0 = none from by decide] at hft
    exact Option.noConfusion hft
  have hdec : decode buf = afterFamily buf ft aLen u := by
    simp [decode, h9, hsig, hver, hcmd, h0, hft, Nat.not_lt.mpr hn,
      PP2_CMD_PROXY, PP2_CMD_LOCAL]
  rw [hdec, afterFamily]
  by_cases hshort : byte buf 14 * 256 + byte buf 15 < aLen
  · simp only [if_pos hshort]
    exact ⟨⟨fun _ => hshort, fun _ => trivial⟩,
      ⟨fun h => by simp at h, fun h => absurd h.1 (by omega)⟩,
      fun h1 _h2 => absurd h1 (by omega)⟩
  · simp only [if_neg hshort]
    by_cases hbig : byte buf 14 * 256 + byte buf 15 + 16 > buf.length
    · simp only [if_pos hbig]
      exact ⟨⟨fun h => by simp at h, fun h => absurd h (by omega)⟩,
        ⟨fun _ => ⟨by omega, by omega⟩, fun _ => trivial⟩,
        fun _h1 h2 => absurd h2 (by omega)⟩
    · simp only [if_neg hbig]
      by_cases hext : aLen < byte buf 14 * 256 + byte buf 15
      · simp only [if_pos hext]
        rcases hout : (print_extensions (fun k => byte buf (16 + aLen + k))
            (byte buf 14 * 256 + byte buf 15 - aLen)).outcome with _ | _ | f <;>
          simp only [hout] <;>
          exact ⟨⟨fun h => by simp at h, fun h => absurd h (by omega)⟩,
            ⟨fun h => by simp at h, fun h => absurd h.2 (by omega)⟩,
            fun _ _ => rfl⟩
      · simp only [if_neg hext]
        exact ⟨⟨fun h => by simp at h, fun h => absurd h (by omega)⟩,
          ⟨fun h => by simp at h, fun h => absurd h.2 (by omega)⟩,
          fun _ _ => rfl⟩

/-- C5 witness: scenario B of the spec, a TCP/IPv4 header whose length
field is 8 < 12, satisfies the length-check characterization: it fails
with LengthTooShortForAddress and not with LengthExceedsBuffer. -/
theorem lengthChecks_witness :
    ((decode bufScenarioB).error = some .lengthTooShortForAddress ↔
        byte bufScenarioB 14 * 256 + byte bufScenarioB 15 < 12) ∧
    ((decode bufScenarioB).error = some .lengthExceedsBuffer ↔
        (12 ≤ byte bufScenarioB 14 * 256 + byte bufScenarioB 15 ∧
          bufScenarioB.length < byte bufScenarioB 14 * 256 + byte bufScenarioB 15 + 16)) ∧
    (12 ≤ byte bufScenarioB 14 * 256 + byte bufScenarioB 15 →
      byte bufScenarioB 14 * 256 + byte bufScenarioB 15 + 16 ≤ bufScenarioB.length →
      (decode bufScenarioB).address.isSome = true) :=
  lengthChecks bufScenarioB .tcpV4 12 false (by decide) (by decide) (by decide)
    (by decide) (by decide) (by decide)

/-- Shift of a payload read: reading at offset a through a view displaced
by b reads at offset b + a of the underlying memory. -/
theorem readRange_shift (mem : Mem) (b a len : Nat) :
    readRange (fun k => mem (b + k)) a len = readRange mem (b + a) len := by
  simp only [readRange]
  congr 1
  funext k
  simp [Nat.add_assoc]

/-- C6: for every buffer that passes all validation with an IPv4 address
block (byte 13 = 0x11 or 0x12), the decoded source address is the 4 bytes
at buffer offset 16 (block offset 0), the destination address the 4 bytes
at offset 20 (block offset 4), and the ports the big-endian 16-bit values
at offsets 24 and 26 (block offsets 8 and 10); with an IPv6 block
(byte 13 = 0x21 or 0x22), the addresses are the 16-byte fields at offsets
16 and 32 (block offsets 0 and 16) and the ports the big-endian 16-bit
values at offsets 48 and 50 (block offsets 32 and 34). -/
theorem addressBlockOffsets (buf : List Nat)
    (hn : 16 ≤ buf.length)
    (h9 : ¬ buf.take 9 = proxyTcpBytes) (hsig : buf.take 12 = PP2_SIG)
    (hver : byte buf 12 &&& PP2_VERSION_MASK = PP2_VERSION)
    (hcmd : byte buf 12 &&& PP2_CMD_MASK = PP2_CMD_PROXY)
    (hlen1 : addressLenOf (byte buf 13) ≤ byte buf 14 * 256 + byte buf 15)
    (hlen2 : byte buf 14 * 256 + byte buf 15 + 16 ≤ buf.length) :
    ((byte buf 13 = 0x11 ∨ byte buf 13 = 0x12) →
      (decode buf).address = some (.ipv4 (readRange (byte buf) 16 4)
        (readRange (byte buf) 20 4)
        (byte buf 24 * 256 + byte buf 25) (byte buf 26 * 256 + byte buf 27))) ∧
    ((byte buf 13 = 0x21 ∨ byte buf 13 = 0x22) →
      (decode buf).address = some (.ipv6 (readRange (byte buf) 16 16)
        (readRange (byte buf) 32 16)
        (byte buf 48 * 256 + byte buf 49) (byte buf 50 * 256 + byte buf 51))) := by
  constructor
  · intro hb13
    have hft : ∃ ft un, famTrans (byte buf 13) = some (ft, 12, un) := by
      rcases hb13 with h | h <;> rw [h]
      · exact ⟨.tcpV4, false, by decide⟩
      · exact ⟨.udpV4, true, by decide⟩
    rcases hft with ⟨ft, un, hft⟩
    have h0 : ¬ byte buf 13 = PP2_TRANS_UNSPEC ||| PP2_FAM_UNSPEC := by
      rcases hb13 with h | h <;> rw [h] <;> decide
    have haLen : addressLenOf (byte buf 13) = 12 := by
      rcases hb13 with h | h <;> rw [h] <;> decide
    have hdec : decode buf = afterFamily buf ft 12 un := by
      simp [decode, h9, hsig, hver, hcmd, h0, hft, Nat.not_lt.mpr hn,
        PP2_CMD_PROXY, PP2_CMD_LOCAL]
    rw [haLen] at hlen1
    rw [hdec, afterFamily]
    rw [if_neg (by omega), if_neg (by omega)]
    by_cases hext : (12 : Nat) < byte buf 14 * 256 + byte buf 15
    · rw [if_pos hext]
      norm_num [print_addr_with_ports, readRange_shift]
    · rw [if_neg hext]
      norm_num [print_addr_with_ports, readRange_shift]
  · intro hb13
    have hft : ∃ ft un, famTrans (byte buf 13) = some (ft, 36, un) := by
      rcases hb13 with h | h <;> rw [h]
      · exact ⟨.tcpV6, false, by decide⟩
      · exact ⟨.udpV6, true, by decide⟩
    rcases hft with ⟨ft, un, hft⟩
    have h0 : ¬ byte buf 13 = PP2_TRANS_UNSPEC ||| PP2_FAM_UNSPEC := by
      rcases hb13 with h | h <;> rw [h] <;> decide
    have haLen : addressLenOf (byte buf 13) = 36 := by
      rcases hb13 with h | h <;> rw [h] <;> decide
    have hdec : decode buf = afterFamily buf ft 36 un := by
      simp [decode, h9, hsig, hver, hcmd, h0, hft, Nat.not_lt.mpr hn,
        PP2_CMD_PROXY, PP2_CMD_LOCAL]
    rw [haLen] at hlen1
    rw [hdec, afterFamily]
    rw [if_neg (by omega), if_neg (by omega)]
    by_cases hext : (36 : Nat) < byte buf 14 * 256 + byte buf 15
    · rw [if_pos hext]
      norm_num [print_addr_with_ports, readRange_shift]
    · rw [if_neg hext]
      norm_num [print_addr_with_ports, readRange_shift]

/-- C6 witness: scenario A of the spec decodes to the IPv4 block whose
fields sit at buffer offsets 16, 20, 24 and 26. -/
theorem addressBlockOffsets_witness :
    ((byte bufScenarioA 13 = 0x11 ∨ byte bufScenarioA 13 = 0x12) →
      (decode bufScenarioA).address = some (.ipv4 (readRange (byte bufScenarioA) 16 4)
        (readRange (byte bufScenarioA) 20 4)
        (byte bufScenarioA 24 * 256 + byte bufScenarioA 25)
        (byte bufScenarioA 26 * 256 + byte bufScenarioA 27))) ∧
    ((byte bufScenarioA 13 = 0x21 ∨ byte bufScenarioA 13 = 0x22) →
      (decode bufScenarioA).address = some (.ipv6 (readRange (byte bufScenarioA) 16 16)
        (readRange (byte bufScenarioA) 32 16)
        (byte bufScenarioA 48 * 256 + byte bufScenarioA 49)
        (byte bufScenarioA 50 * 256 + byte bufScenarioA 51))) :=
  addressBlockOffsets bufScenarioA (by decide) (by decide) (by decide) (by decide)
    (by decide) (by decide) (by decide)

/-- Fields of afterFamily when both length checks pass: the
family/transport tag is recorded, an address block is decoded, the only
possible errors are extension-stage errors, and the unsupported marker
is exactly the one chosen by the byte-13 switch. -/
theorem afterFamily_fields (buf : List Nat) (ft : FamilyTransport) (aLen : Nat) (u : Bool)
    (hlen1 : aLen ≤ byte buf 14 * 256 + byte buf 15)
    (hlen2 : byte buf 14 * 256 + byte buf 15 + 16 ≤ buf.length) :
    (afterFamily buf ft aLen u).familyTransport = some ft ∧
    (afterFamily buf ft aLen u).address.isSome = true ∧
    ((afterFamily buf ft aLen u).error = none ∨
      (afterFamily buf ft aLen u).error = some .extensionBoundsError ∨
      (afterFamily buf ft aLen u).error = some .extensionLengthMismatch) ∧
    (afterFamily buf ft aLen u).unsupported = u := by
  rw [afterFamily]
  rw [if_neg (by omega), if_neg (by omega)]
  by_cases hext : aLen < byte buf 14 * 256 + byte buf 15
  · rw [if_pos hext]
    refine ⟨rfl, rfl, ?_, rfl⟩
    rcases hout : (print_extensions (fun k => byte buf (16 + aLen + k))
        (byte buf 14 * 256 + byte buf 15 - aLen)).outcome with _ | _ | f <;>
      simp [hout]
  · rw [if_neg hext]
    exact ⟨rfl, rfl, Or.inl rfl, rfl⟩

/-- C2 (amended): with all header checks up to the command passed, a
byte 13 of 0x12 (UDP over IPv4), 0x22 (UDP over IPv6), 0x31 (UNIX
stream) or 0x32 (UNIX datagram) whose length checks pass is non-fatal:
the family/transport is recorded, the address block is still decoded and
the only possible failure is from the extension stage.  The
unsupported-transport marker, however, is printed exactly for the UDP
and UNIX-datagram combinations and not for UNIX stream (see the
counterexample). -/
theorem unsupportedTransportsMarked (buf : List Nat)
    (hn : 16 ≤ buf.length)
    (h9 : ¬ buf.take 9 = proxyTcpBytes) (hsig : buf.take 12 = PP2_SIG)
    (hver : byte buf 12 &&& PP2_VERSION_MASK = PP2_VERSION)
    (hcmd : byte buf 12 &&& PP2_CMD_MASK = PP2_CMD_PROXY)
    (hb13 : byte buf 13 = 0x12 ∨ byte buf 13 = 0x22 ∨ byte buf 13 = 0x31 ∨
      byte buf 13 = 0x32)
    (hlen1 : addressLenOf (byte buf 13) ≤ byte buf 14 * 256 + byte buf 15)
    (hlen2 : byte buf 14 * 256 + byte buf 15 + 16 ≤ buf.length) :
    (decode buf).familyTransport.isSome = true ∧
    (decode buf).address.isSome = true ∧
    ((decode buf).error = none ∨ (decode buf).error = some .extensionBoundsError ∨
      (decode buf).error = some .extensionLengthMismatch) ∧
    ((decode buf).unsupported = true ↔ ¬ byte buf 13 = 0x31) := by
  have h0 : ¬ byte buf 13 = PP2_TRANS_UNSPEC ||| PP2_FAM_UNSPEC := by
    rcases hb13 with h | h | h | h <;> rw [h] <;> decide
  rcases hb13 with h | h | h | h
  · have hft : famTrans (byte buf 13) = some (.udpV4, 12, true) := by rw [h]; decide
    have haLen : addressLenOf (byte buf 13) = 12 := by rw [h]; decide
    have hdec : decode buf = afterFamily buf .udpV4 12 true := by
      simp [decode, h9, hsig, hver, hcmd, h0, hft, Nat.not_lt.mpr hn,
        PP2_CMD_PROXY, PP2_CMD_LOCAL]
    rw [haLen] at hlen1
    obtain ⟨h1, h2, h3, h4⟩ := afterFamily_fields buf .udpV4 12 true hlen1 hlen2
    rw [hdec]
    exact ⟨by rw [h1]; rfl, h2, h3, by rw [h4, h]; simp⟩
  · have hft : famTrans (byte buf 13) = some (.udpV6, 36, true) := by rw [h]; decide
    have haLen : addressLenOf (byte buf 13) = 36 := by rw [h]; decide
    have hdec : decode buf = afterFamily buf .udpV6 36 true := by
      simp [decode, h9, hsig, hver, hcmd, h0, hft, Nat.not_lt.mpr hn,
        PP2_CMD_PROXY, PP2_CMD_LOCAL]
    rw [haLen] at hlen1
    obtain ⟨h1, h2, h3, h4⟩ := afterFamily_fields buf .udpV6 36 true hlen1 hlen2
    rw [hdec]
    exact ⟨by rw [h1]; rfl, h2, h3, by rw [h4, h]; simp⟩
  · have hft : famTrans (byte buf 13) = some (.unixStream, 216, false) := by rw [h]; decide
    have haLen : addressLenOf (byte buf 13) = 216 := by rw [h]; decide
    have hdec : decode buf = afterFamily buf .unixStream 216 false := by
      simp [decode, h9, hsig, hver, hcmd, h0, hft, Nat.not_lt.mpr hn,
        PP2_CMD_PROXY, PP2_CMD_LOCAL]
    rw [haLen] at hlen1
    obtain ⟨h1, h2, h3, h4⟩ := afterFamily_fields buf .unixStream 216 false hlen1 hlen2
    rw [hdec]
    exact ⟨by rw [h1]; rfl, h2, h3, by rw [h4, h]; simp⟩
  · have hft : famTrans (byte buf 13) = some (.unixDgram, 216, true) := by rw [h]; decide
    have haLen : addressLenOf (byte buf 13) = 216 := by rw [h]; decide
    have hdec : decode buf = afterFamily buf .unixDgram 216 true := by
      simp [decode, h9, hsig, hver, hcmd, h0, hft, Nat.not_lt.mpr hn,
        PP2_CMD_PROXY, PP2_CMD_LOCAL]
    rw [haLen] at hlen1
    obtain ⟨h1, h2, h3, h4⟩ := afterFamily_fields buf .unixDgram 216 true hlen1 hlen2
    rw [hdec]
    exact ⟨by rw [h1]; rfl, h2, h3, by rw [h4, h]; simp⟩

/-- C2 witness: a valid UDP-over-IPv4 header is decoded with its address
block, carries the unsupported marker, and does not fail. -/
theorem unsupportedTransportsMarked_witness :
    (decode bufUdp4).familyTransport.isSome = true ∧
    (decode bufUdp4).address.isSome = true ∧
    ((decode bufUdp4).error = none ∨ (decode bufUdp4).error = some .extensionBoundsError ∨
      (decode bufUdp4).error = some .extensionLengthMismatch) ∧
    ((decode bufUdp4).unsupported = true ↔ ¬ byte bufUdp4 13 = 0x31) :=
  unsupportedTransportsMarked bufUdp4 (by decide) (by decide) (by decide) (by decide)
    (by decide) (Or.inl (by decide)) (by decide) (by decide)

set_option maxRecDepth 10000 in
/-- C2 counterexample: a fully valid UNIX-stream header (byte 13 = 0x31)
decodes successfully with the UNIX family recorded, yet no
unsupported-transport marker is emitted, contradicting the claim that
all four combinations are flagged. -/
theorem unixStreamNotMarked_cex :
    (decode bufUnixStream).error = none ∧
    (decode bufUnixStream).familyTransport = some .unixStream ∧
    (decode bufUnixStream).unsupported = false := by
  decide

end ParseProxyV2
